import Mathlib

/-!
Verification of the reactive core of `bevy_reactor` against a shallow
embedding of its source. Entities of the host store are natural-number
ids; the world carries the live-entity set, the parent hierarchy, the
component records the claims need, and an event trace that makes the
order of build/raze operations observable.

Sources embedded: `src/cond.rs` (the `Cond` conditional view),
`src/fragment.rs` (the `Fragment` view), and, from the
`bevy_reactor_signals` and `bevy_reactor_builder` crates, `derived.rs`,
`callback.rs`, `reaction.rs` and `ui_builder.rs`. Pieces of this
repository referenced but not present in the sources here (the
`TrackingScope` internals, `Rcx` reads of mutable cells,
`ViewRef::spawn`, `DespawnScopes::despawn_owned_recursive`) are
modelled from the spec and marked as such in their doc comments.
Panics (`assert!`, `unwrap`, explicit `panic!`) are modelled by
`Option`: `none` is an abort.
-/

/-- Entities of the host store are identified by natural-number ids. -/
abbrev EntityId := Nat

/-- Observable operations performed on the host store, recorded in a
trace so that ordering claims (raze-before-build, declared child order)
can be stated. -/
inductive Event where
  | spawn (e : EntityId)
  | setParent (child parent : EntityId)
  | buildLeaf (label : Nat) (e : EntityId)
  | razeLeaf (label : Nat) (e : EntityId)
  | despawn (e : EntityId)
  | displayNodeChanged (e : EntityId)
  deriving DecidableEq, Repr

/-- Modelled from the spec: a `TrackingScope` is "an unordered set of
(dependency id, kind) pairs plus a baseline tick" (the
`tracking_scope.rs` source is not among the files here). Dependencies
here are the entity ids of the cells read. -/
structure TrackingScope where
  deps : List EntityId
  tick : Nat
  deriving DecidableEq, Repr

/-- Modelled from the spec: `record(dependency)` "adds a dependency
observed during the current reaction run; idempotent (set semantics)". -/
def TrackingScope.record (t : TrackingScope) (e : EntityId) : TrackingScope :=
  if e ∈ t.deps then t else { t with deps := t.deps ++ [e] }

/-- Deep embedding of the compute functions stored in a
`DerivedCell<R>` (`derived.rs`): a compute function reads mutable cells
through the `Rcx` it is handed and combines the values; reading a cell
records the dependency in the ambient tracking scope. -/
inductive SigExpr where
  | lit (n : Nat)
  | readMutable (src : EntityId)
  | add (a b : SigExpr)
  deriving DecidableEq, Repr

/-- Cell ids read by a compute function, in evaluation order. -/
def SigExpr.reads : SigExpr → List EntityId
  | .lit _ => []
  | .readMutable e => [e]
  | .add a b => a.reads ++ b.reads

/-- The world: the slice of the Bevy `World` that the embedded code
touches. `live` is the set of spawned entities, `parents` maps a child
to its `Parent`, `scopes`/`reactionCells`/`ghostNodes` record the
inserted components of those types, `mutables` holds the values of
mutable cells and `derivedCells` the stored compute functions of
derived signals. `trace` is the event log. -/
structure World where
  nextId : Nat
  live : List EntityId
  parents : List (EntityId × EntityId)
  scopes : List (EntityId × TrackingScope)
  reactionCells : List EntityId
  ghostNodes : List EntityId
  mutables : List (EntityId × Nat)
  derivedCells : List (EntityId × SigExpr)
  changeTick : Nat
  lastChangeTick : Nat
  trace : List Event
  deriving Repr

/-- Bevy `world.spawn_empty()`: returns a fresh entity id. -/
def World.spawnEmpty (w : World) : EntityId × World :=
  (w.nextId,
    { w with
      nextId := w.nextId + 1
      live := w.live ++ [w.nextId]
      trace := w.trace ++ [Event.spawn w.nextId] })

/-- Bevy `entity_mut(child).set_parent(parent)`. -/
def World.setParent (w : World) (child parent : EntityId) : World :=
  { w with
    parents := (child, parent) :: w.parents.filter (fun p => p.1 ≠ child)
    trace := w.trace ++ [Event.setParent child parent] }

/-- Lookup of the `Parent` component of an entity. -/
def World.parentOf (w : World) (child : EntityId) : Option EntityId :=
  (w.parents.find? (fun p => p.1 = child)).map (fun p => p.2)

/-- Bevy `entity_mut(e).despawn()`: removes the entity from the store. -/
def World.despawn (w : World) (e : EntityId) : World :=
  { w with
    live := w.live.filter (fun x => x ≠ e)
    parents := w.parents.filter (fun p => p.1 ≠ e)
    trace := w.trace ++ [Event.despawn e] }

/-- Children of an entity in the hierarchy. -/
def World.childrenOf (w : World) (e : EntityId) : List EntityId :=
  (w.parents.filter (fun p => p.2 = e)).map (fun p => p.1)

/-- The subtree rooted at an entity, collected to a given depth. -/
def World.subtree (w : World) : Nat → EntityId → List EntityId
  | 0, e => [e]
  | fuel + 1, e => e :: ((w.childrenOf e).map (w.subtree fuel)).flatten

/-- Despawns every entity in a list, in order. -/
def despawnAll : List EntityId → World → World
  | [], w => w
  | e :: rest, w => despawnAll rest (w.despawn e)

/-- Modelled from the spec: `DespawnScopes::despawn_owned_recursive`
(its source is not among the files here) — "Raze: full, recursive
teardown of a previously built subtree": despawns the entity and all of
its descendants. -/
def World.despawnOwnedRecursive (w : World) (e : EntityId) : World :=
  despawnAll (w.subtree w.parents.length e) w

/-- Insertion of a `TrackingScope` component on an entity. -/
def World.insertScope (w : World) (e : EntityId) (t : TrackingScope) : World :=
  { w with scopes := (e, t) :: w.scopes.filter (fun p => p.1 ≠ e) }

/-- Lookup of the `TrackingScope` component of an entity. -/
def World.scopeOf (w : World) (e : EntityId) : Option TrackingScope :=
  (w.scopes.find? (fun p => p.1 = e)).map (fun p => p.2)

/-- Lookup of the value of a mutable cell. -/
def World.mutableValue (w : World) (e : EntityId) : Option Nat :=
  (w.mutables.find? (fun p => p.1 = e)).map (fun p => p.2)

/-- Lookup of the compute function stored in a `DerivedCell` on a
node (`derived_entity.get::<DerivedCell<R>>()`). -/
def World.derivedCellOf (w : World) (e : EntityId) : Option SigExpr :=
  (w.derivedCells.find? (fun p => p.1 = e)).map (fun p => p.2)

/-- Evaluation of a stored compute function against the world, with the
ambient tracking scope threaded through. A `readMutable` mirrors the
`Rcx` read path of a mutable cell, modelled from the spec: it "reads
current value, registers dependency on ambient scope"; a read whose
cell is absent is a MissingDependency abort (`none`). -/
def evalSig : SigExpr → World → TrackingScope → Option (Nat × TrackingScope)
  | .lit n, _, t => some (n, t)
  | .readMutable e, w, t =>
      match w.mutableValue e with
      | none => none
      | some v => some (v, t.record e)
  | .add a b, w, t =>
      match evalSig a w t with
      | none => none
      | some (va, t1) =>
          match evalSig b w t1 with
          | none => none
          | some (vb, t2) => some (va + vb, t2)

/-- Embeds `<World as ReadDerivedInternal>::read_derived_with_scope`
(`derived.rs`): looks up the `DerivedCell` of the node; if present,
invokes the stored compute function with an `Rcx` bound to the caller's
tracking scope; if absent, panics ("No derived found"). The
`DeferredWorld` impl (`derived.rs` lines 192-242) is textually the same
code. -/
def World.readDerivedWithScope (w : World) (derived : EntityId) (scope : TrackingScope) :
    Option (Nat × TrackingScope) :=
  match w.derivedCellOf derived with
  | some cell => evalSig cell w scope
  | none => none

/-- Embeds `read_derived_clone_with_scope`: identical to
`read_derived_with_scope` up to the final `.clone()`, which is the
identity on the value. -/
def World.readDerivedCloneWithScope (w : World) (derived : EntityId) (scope : TrackingScope) :
    Option (Nat × TrackingScope) :=
  match w.derivedCellOf derived with
  | some cell => evalSig cell w scope
  | none => none

/-- Embeds `read_derived_map_with_scope`: invokes the stored compute
function and applies the mapping function to the result. -/
def World.readDerivedMapWithScope (w : World) (derived : EntityId) (scope : TrackingScope)
    (f : Nat → Nat) : Option (Nat × TrackingScope) :=
  match w.derivedCellOf derived with
  | some cell =>
      match evalSig cell w scope with
      | none => none
      | some (v, t1) => some (f v, t1)
  | none => none

/-- Embeds `<World as ReadDerived>::read_derived`: creates a fresh
tracking scope at the current change tick and reads through it. -/
def World.readDerived (w : World) (derived : EntityId) : Option Nat :=
  match w.readDerivedWithScope derived ⟨[], w.changeTick⟩ with
  | none => none
  | some (v, _) => some v

/-- Embeds `<World as ReadDerived>::read_derived_clone`. -/
def World.readDerivedClone (w : World) (derived : EntityId) : Option Nat :=
  match w.readDerivedCloneWithScope derived ⟨[], w.changeTick⟩ with
  | none => none
  | some (v, _) => some v

/-- Embeds `<World as ReadDerived>::read_derived_map`. -/
def World.readDerivedMap (w : World) (derived : EntityId) (f : Nat → Nat) : Option Nat :=
  match w.readDerivedMapWithScope derived ⟨[], w.changeTick⟩ f with
  | none => none
  | some (v, _) => some v

/-- Embeds `Callback<P>` (`callback.rs`): at runtime a callback handle
is its registered `SystemId` plus, through the erased
`dyn AnyCallback`, the `TypeId` of its props type `P` (`type_id()`
returns `TypeId::of::<P>()`). `TypeId`s are modelled as naturals. -/
structure Callback where
  tagP : Nat
  id : Nat
  deriving DecidableEq, Repr

/-- Embeds `<dyn AnyCallback>::downcast::<P>` (`callback.rs` lines
22-32): if the requested type's tag equals the stored procedure's type
tag, the cast returns the original handle unchanged; otherwise it
panics ("downcast failed"), modelled as `none`. -/
def AnyCallback.downcast (c : Callback) (reqTag : Nat) : Option Callback :=
  if reqTag = c.tagP then some c else none

/-- Embeds `EffectReaction` (`ui_builder.rs`): holds the user effect
closure. The closure receives an `Ecx` giving it the owner entity,
mutable access to the world, and the tracking scope. -/
structure EffectReaction where
  effect : EntityId → World → TrackingScope → World × TrackingScope

/-- Embeds `<EffectReaction as Reaction>::react`: constructs the `Ecx`
and calls the effect. -/
def EffectReaction.react (r : EffectReaction) (owner : EntityId) (w : World)
    (t : TrackingScope) : World × TrackingScope :=
  r.effect owner w t

/-- World after inserting `(scope, ReactionCell::new(reaction), GhostNode)`
on an entity, the final statement of `create_effect`. -/
def World.insertEffectComponents (w : World) (e : EntityId) (t : TrackingScope) : World :=
  { w.insertScope e t with
    reactionCells := e :: (w.insertScope e t).reactionCells
    ghostNodes := e :: (w.insertScope e t).ghostNodes }

/-- Embeds `UiBuilder::create_effect` (`ui_builder.rs` lines 110-123):
creates a tracking scope baselined at `last_change_tick`, spawns an
empty entity parented to the builder's parent, runs the reaction's
`react` once, then inserts the scope, the reaction cell and a ghost
node on the new entity. The builder is represented by its two fields
(world, parent). -/
def UiBuilder.createEffect (w : World) (parent : EntityId) (r : EffectReaction) : World :=
  let scope : TrackingScope := ⟨[], w.lastChangeTick⟩
  let s := w.spawnEmpty
  let effectOwner := s.1
  let w2 := s.2.setParent effectOwner parent
  let res := r.react effectOwner w2 scope
  res.1.insertEffectComponents effectOwner res.2

/-- Modelled from the spec: the `View` contract for a leaf child view.
A leaf's `build(node, store)` records its node; its `raze(node, store)`
despawns its own node ("Child raze() will despawn itself",
`fragment.rs`). The label identifies the child in the trace. -/
structure LeafView where
  label : Nat
  deriving DecidableEq, Repr

/-- Leaf `build`: records the build of this view at its node. -/
def LeafView.build (v : LeafView) (e : EntityId) (w : World) : World :=
  { w with trace := w.trace ++ [Event.buildLeaf v.label e] }

/-- Leaf `raze`: records the raze, then despawns its own node. -/
def LeafView.raze (v : LeafView) (e : EntityId) (w : World) : World :=
  World.despawn { w with trace := w.trace ++ [Event.razeLeaf v.label e] } e

/-- Modelled from the spec: `ViewRef::spawn(view, parent, world)` (its
source is not among the files here) — "constructs all child views in
declared order, recording each child's resulting node/entity": spawns a
node for the child view, parents it, builds the view there and returns
the node. -/
def ViewRef.spawn (v : LeafView) (parent : EntityId) (w : World) : EntityId × World :=
  let s := w.spawnEmpty
  (s.1, v.build s.1 (s.2.setParent s.1 parent))

/-- Embeds `ChildView` (used by `fragment.rs`): a child view plus the
entity it was built on, `None` before build / after raze. -/
structure ChildView where
  view : LeafView
  entity : Option EntityId
  deriving DecidableEq, Repr

/-- The loop body of `Fragment::build` (`fragment.rs` lines 54-59),
one child at a time in declared order: each child's entity is set to
the node `ViewRef::spawn` produced for it. -/
def buildChildren (viewEntity : EntityId) : List ChildView → World → List ChildView × World
  | [], w => ([], w)
  | c :: rest, w =>
      let s := ViewRef.spawn c.view viewEntity w
      let r := buildChildren viewEntity rest s.2
      ({ c with entity := some s.1 } :: r.1, r.2)

/-- The loop body of `Fragment::raze` (`fragment.rs` lines 61-68), one
child at a time in declared order: razes each child at its recorded
entity (`child.entity.unwrap()` panics — `none` — when absent) and
clears the record. -/
def razeChildren : List ChildView → World → Option (List ChildView × World)
  | [], w => some ([], w)
  | c :: rest, w =>
      match c.entity with
      | none => none
      | some e =>
          match razeChildren rest (c.view.raze e w) with
          | none => none
          | some r => some ({ c with entity := none } :: r.1, r.2)

/-- Embeds `Fragment` (`fragment.rs`): a group of child views rendered
in place of the fragment itself. -/
structure Fragment where
  children : List ChildView
  deriving DecidableEq, Repr

/-- Embeds `Fragment::build`: builds the child nodes in declared
order. -/
def Fragment.build (f : Fragment) (viewEntity : EntityId) (w : World) : Fragment × World :=
  let r := buildChildren viewEntity f.children w
  (⟨r.1⟩, r.2)

/-- Embeds `Fragment::raze`: razes all child views in declared order,
then despawns the fragment's own view entity. -/
def Fragment.raze (f : Fragment) (viewEntity : EntityId) (w : World) :
    Option (Fragment × World) :=
  match razeChildren f.children w with
  | none => none
  | some r => some (⟨r.1⟩, r.2.despawn viewEntity)

/-- Embeds `<Fragment as Reaction>::react` (`fragment.rs` lines 73-81):
the body is empty. -/
def Fragment.react (f : Fragment) (_owner : EntityId) (w : World) (t : TrackingScope) :
    Fragment × World × TrackingScope :=
  (f, w, t)

/-- Embeds `CondState` (`cond.rs`): exactly one of `Unset`, `True`
with its branch, or `False` with its branch; a branch is the built view
instance and the entity it was built on. Branch views are instantiated
with `Fragment`. -/
inductive CondState where
  | unset
  | isTrue (branch : Fragment × EntityId)
  | isFalse (branch : Fragment × EntityId)

/-- Embeds `Cond` (`cond.rs`): the test closure (reading the world
through an `Rcx` bound to the tracking scope), the two branch
factories, and the branch state. -/
structure Cond where
  test : World → TrackingScope → Bool × TrackingScope
  pos : Unit → Fragment
  neg : Unit → Fragment
  state : CondState

/-- Embeds `Cond::build_branch_state` (`cond.rs` lines 46-58): spawns
the branch's state entity, creates the branch view from its factory,
parents the state entity to the Cond's view entity, builds the branch
view on the state entity, and marks the parent's display node
changed. -/
def Cond.buildBranchState (branch : Unit → Fragment) (parent : EntityId) (w : World) :
    (Fragment × EntityId) × World :=
  let s := w.spawnEmpty
  let stateEntity := s.1
  let stateView := branch ()
  let w2 := s.2.setParent stateEntity parent
  let r := stateView.build stateEntity w2
  ((r.1, stateEntity), { r.2 with trace := r.2.trace ++ [Event.displayNodeChanged parent] })

/-- Embeds `Cond::react` (`cond.rs` lines 87-133): re-evaluates the
test; when the result matches the current branch kind nothing is done;
when it selects the opposite branch the current branch view is razed on
its branch entity, then the new branch is built; from `Unset` the
selected branch is built directly. -/
def Cond.react (c : Cond) (viewEntity : EntityId) (w : World) (t : TrackingScope) :
    Option (Cond × World × TrackingScope) :=
  let tr := c.test w t
  if tr.1 then
    match c.state with
    | CondState.isTrue _ => some (c, w, tr.2)
    | CondState.isFalse fb =>
        match fb.1.raze fb.2 w with
        | none => none
        | some r =>
            let b := Cond.buildBranchState c.pos viewEntity r.2
            some ({ c with state := CondState.isTrue b.1 }, b.2, tr.2)
    | CondState.unset =>
        let b := Cond.buildBranchState c.pos viewEntity w
        some ({ c with state := CondState.isTrue b.1 }, b.2, tr.2)
  else
    match c.state with
    | CondState.isFalse _ => some (c, w, tr.2)
    | CondState.isTrue tb =>
        match tb.1.raze tb.2 w with
        | none => none
        | some r =>
            let b := Cond.buildBranchState c.neg viewEntity r.2
            some ({ c with state := CondState.isFalse b.1 }, b.2, tr.2)
    | CondState.unset =>
        let b := Cond.buildBranchState c.neg viewEntity w
        some ({ c with state := CondState.isFalse b.1 }, b.2, tr.2)

/-- Embeds `Cond::build` (`cond.rs` lines 77-85): creates a fresh
tracking scope baselined at the world's current change tick, runs
`react` once, inserts the scope on the view entity, then asserts that
the view entity has a `Parent` ("Cond should have a parent view"),
panicking — `none` — when it does not. -/
def Cond.build (c : Cond) (viewEntity : EntityId) (w : World) : Option (Cond × World) :=
  let tracking : TrackingScope := ⟨[], w.changeTick⟩
  match c.react viewEntity w tracking with
  | none => none
  | some r =>
      let w2 := r.2.1.insertScope viewEntity r.2.2
      if (w2.parentOf viewEntity).isSome then some (r.1, w2) else none

/-- Embeds `Cond::raze` (`cond.rs` lines 135-146): razes whichever
branch is active (nothing for `Unset`), then unconditionally despawns
the Cond's own view entity recursively. -/
def Cond.raze (c : Cond) (viewEntity : EntityId) (w : World) : Option (Cond × World) :=
  match c.state with
  | CondState.isTrue tb =>
      match tb.1.raze tb.2 w with
      | none => none
      | some r => some (c, r.2.despawnOwnedRecursive viewEntity)
  | CondState.isFalse fb =>
      match fb.1.raze fb.2 w with
      | none => none
      | some r => some (c, r.2.despawnOwnedRecursive viewEntity)
  | CondState.unset => some (c, w.despawnOwnedRecursive viewEntity)

/-- Teardown events: those a raze emits. -/
def isTeardownEvent : Event → Bool
  | Event.razeLeaf _ _ => true
  | Event.despawn _ => true
  | _ => false

/-- Construction events: those a build emits. -/
def isConstructionEvent : Event → Bool
  | Event.spawn _ => true
  | Event.setParent _ _ => true
  | Event.buildLeaf _ _ => true
  | Event.displayNodeChanged _ => true
  | _ => false

/-- The labels of the leaf builds in a trace, in order. -/
def buildLabels : List Event → List Nat
  | [] => []
  | Event.buildLeaf l _ :: rest => l :: buildLabels rest
  | _ :: rest => buildLabels rest

/-- The labels of the leaf razes in a trace, in order. -/
def razeLabels : List Event → List Nat
  | [] => []
  | Event.razeLeaf l _ :: rest => l :: razeLabels rest
  | _ :: rest => razeLabels rest

/-- The declared child labels of a fragment, in order. -/
def Fragment.labels (f : Fragment) : List Nat :=
  f.children.map (fun c => c.view.label)

/-- The entities recorded for a fragment's children. -/
def Fragment.childEntities (f : Fragment) : List EntityId :=
  f.children.filterMap (fun c => c.entity)

lemma buildLabels_append (t1 t2 : List Event) :
    buildLabels (t1 ++ t2) = buildLabels t1 ++ buildLabels t2 := by
  induction t1 with
  | nil => rfl
  | cons e rest ih => cases e <;> simp [buildLabels, ih]

lemma razeLabels_append (t1 t2 : List Event) :
    razeLabels (t1 ++ t2) = razeLabels t1 ++ razeLabels t2 := by
  induction t1 with
  | nil => rfl
  | cons e rest ih => cases e <;> simp [razeLabels, ih]

lemma find?_and_ne {α : Type} (l : List (Nat × α)) (x c : Nat) (h : x ≠ c) :
    (l.find? fun a => !decide (a.1 = c) && decide (a.1 = x)) =
      l.find? (fun p => p.1 = x) := by
  induction l with
  | nil => rfl
  | cons hd tl ih =>
      by_cases h2 : hd.1 = x
      · have h1 : ¬ (hd.1 = c) := by
          intro hc; exact h (h2 ▸ hc)
        simp [List.find?_cons, h1, h2, h]
      · simp [List.find?_cons, h2, ih]

lemma find?_filter_ne {α : Type} (l : List (Nat × α)) (x c : Nat) (h : x ≠ c) :
    (l.filter (fun p => p.1 ≠ c)).find? (fun p => p.1 = x) =
      l.find? (fun p => p.1 = x) := by
  simp only [List.find?_filter]
  have := find?_and_ne l x c h
  simpa using this

lemma parentOf_setParent_ne (w : World) (child parent x : EntityId) (h : x ≠ child) :
    (w.setParent child parent).parentOf x = w.parentOf x := by
  have hc : ¬ (child = x) := fun hc => h hc.symm
  simp [World.setParent, World.parentOf, List.find?_cons, hc, find?_and_ne _ _ _ h]

lemma parentOf_viewSpawn_ne (v : LeafView) (parent x : EntityId) (w : World)
    (h : x ≠ w.nextId) :
    ((ViewRef.spawn v parent w).2).parentOf x = w.parentOf x := by
  have heq : ((ViewRef.spawn v parent w).2).parentOf x =
      (((w.spawnEmpty).2).setParent w.nextId parent).parentOf x := rfl
  rw [heq, parentOf_setParent_ne _ _ _ _ h]
  rfl

lemma buildChildren_spec (ve : EntityId) (cs : List ChildView) :
    ∀ (w : World),
      w.nextId ≤ (buildChildren ve cs w).2.nextId ∧
      (∃ bE, (buildChildren ve cs w).2.trace = w.trace ++ bE ∧
        bE.all isConstructionEvent = true) ∧
      buildLabels (buildChildren ve cs w).2.trace =
        buildLabels w.trace ++ cs.map (fun c => c.view.label) ∧
      (∀ c ∈ (buildChildren ve cs w).1, c.entity.isSome = true) ∧
      (∀ x, x ∉ w.live → x < w.nextId → x ∉ (buildChildren ve cs w).2.live) ∧
      (∀ x, x < w.nextId → (buildChildren ve cs w).2.parentOf x = w.parentOf x) := by
  induction cs with
  | nil =>
      intro w
      refine ⟨le_rfl, ⟨[], by simp [buildChildren], rfl⟩, by simp [buildChildren],
        by simp [buildChildren], ?_, ?_⟩
      · intro x hx _
        simpa [buildChildren] using hx
      · intro x _
        rfl
  | cons c rest ih =>
      intro w
      have hred1 : (buildChildren ve (c :: rest) w).1 =
          { c with entity := some w.nextId } ::
            (buildChildren ve rest (ViewRef.spawn c.view ve w).2).1 := rfl
      have hred2 : (buildChildren ve (c :: rest) w).2 =
          (buildChildren ve rest (ViewRef.spawn c.view ve w).2).2 := rfl
      obtain ⟨ih1, ⟨bE, ihtr, ihall⟩, ihlab, ihent, ihlive, ihpar⟩ :=
        ih (ViewRef.spawn c.view ve w).2
      have hn : (ViewRef.spawn c.view ve w).2.nextId = w.nextId + 1 := rfl
      have hl : (ViewRef.spawn c.view ve w).2.live = w.live ++ [w.nextId] := rfl
      have ht : (ViewRef.spawn c.view ve w).2.trace = w.trace ++
          [Event.spawn w.nextId, Event.setParent w.nextId ve,
            Event.buildLeaf c.view.label w.nextId] := by
        simp [ViewRef.spawn, World.spawnEmpty, World.setParent, LeafView.build]
      refine ⟨?_, ?_, ?_, ?_, ?_, ?_⟩
      · rw [hred2]
        omega
      · refine ⟨[Event.spawn w.nextId, Event.setParent w.nextId ve,
          Event.buildLeaf c.view.label w.nextId] ++ bE, ?_, ?_⟩
        · rw [hred2, ihtr, ht, List.append_assoc]
        · simp [isConstructionEvent, ihall]
      · rw [hred2, ihlab, ht, buildLabels_append]
        simp [buildLabels]
      · rw [hred1]
        intro c' hc'
        rcases List.mem_cons.mp hc' with h | h
        · rw [h]
          rfl
        · exact ihent c' h
      · rw [hred2]
        intro x hx hlt
        have hx2 : x < (ViewRef.spawn c.view ve w).2.nextId := by
          rw [hn]
          exact Nat.lt_succ_of_lt hlt
        refine ihlive x ?_ hx2
        rw [hl]
        simp only [List.mem_append, List.mem_singleton]
        rintro (h | h)
        · exact hx h
        · exact Nat.lt_irrefl _ (h ▸ hlt)
      · rw [hred2]
        intro x hlt
        have hx2 : x < (ViewRef.spawn c.view ve w).2.nextId := by
          rw [hn]
          exact Nat.lt_succ_of_lt hlt
        rw [ihpar x hx2]
        exact parentOf_viewSpawn_ne c.view ve x w (Nat.ne_of_lt hlt)

lemma razeChildren_total : ∀ (cs : List ChildView) (w : World),
    (∀ c ∈ cs, c.entity.isSome = true) → (razeChildren cs w).isSome = true
  | [], _, _ => rfl
  | c :: rest, w, h => by
      have hc : c.entity.isSome = true := h c (List.mem_cons_self c rest)
      obtain ⟨e, he⟩ := Option.isSome_iff_exists.mp hc
      have hrest := razeChildren_total rest (c.view.raze e w)
        (fun c' hc' => h c' (List.mem_cons_of_mem c hc'))
      obtain ⟨r', hr'⟩ := Option.isSome_iff_exists.mp hrest
      simp [razeChildren, he, hr']

lemma razeChildren_spec : ∀ (cs : List ChildView) (w : World) (r : List ChildView × World),
    razeChildren cs w = some r →
      r.2.nextId = w.nextId ∧
      (∃ tE, r.2.trace = w.trace ++ tE ∧ tE.all isTeardownEvent = true) ∧
      razeLabels r.2.trace = razeLabels w.trace ++ cs.map (fun c => c.view.label) ∧
      (∀ x, x ∉ w.live → x ∉ r.2.live) ∧
      (∀ c ∈ cs, ∀ e, c.entity = some e → e ∉ r.2.live)
  | [], w, r, h => by
      have hr : r = ([], w) := by
        simpa [razeChildren] using h.symm
      subst hr
      exact ⟨rfl, ⟨[], by simp, rfl⟩, by simp, fun x hx => hx, by simp⟩
  | c :: rest, w, r, h => by
      cases hc : c.entity with
      | none => simp [razeChildren, hc] at h
      | some e =>
          cases hr' : razeChildren rest (c.view.raze e w) with
          | none => simp [razeChildren, hc, hr'] at h
          | some r' =>
              have hreq : r = ({ c with entity := none } :: r'.1, r'.2) := by
                simp only [razeChildren, hc, hr'] at h
                exact (Option.some_inj.mp h).symm
              obtain ⟨ih1, ⟨tE, ihtr, ihall⟩, ihlab, ihlive, ihdead⟩ :=
                razeChildren_spec rest (c.view.raze e w) r' hr'
              have hw1n : (c.view.raze e w).nextId = w.nextId := rfl
              have hw1t : (c.view.raze e w).trace =
                  w.trace ++ [Event.razeLeaf c.view.label e, Event.despawn e] := by
                simp [LeafView.raze, World.despawn]
              have hw1l : (c.view.raze e w).live = w.live.filter (fun x => x ≠ e) := rfl
              have habsent : ∀ x, x ∉ w.live → x ∉ (c.view.raze e w).live := by
                intro x hx hmem
                rw [hw1l] at hmem
                exact hx (List.mem_of_mem_filter hmem)
              have hedead : e ∉ (c.view.raze e w).live := by
                rw [hw1l]
                intro hmem
                have := List.of_mem_filter hmem
                simp at this
              subst hreq
              refine ⟨by rw [ih1, hw1n], ?_, ?_, ?_, ?_⟩
              · refine ⟨[Event.razeLeaf c.view.label e, Event.despawn e] ++ tE, ?_, ?_⟩
                · rw [ihtr, hw1t, List.append_assoc]
                · simp [isTeardownEvent, ihall]
              · rw [ihlab, hw1t, razeLabels_append]
                simp [razeLabels]
              · intro x hx
                exact ihlive x (habsent x hx)
              · intro c' hc' e' he'
                rcases List.mem_cons.mp hc' with hh | hh
                · rw [hh, hc] at he'
                  have he2 : e' = e := (Option.some_inj.mp he').symm
                  rw [he2]
                  exact ihlive e hedead
                · exact ihdead c' hh e' he'

lemma Fragment.raze_total (f : Fragment) (ve : EntityId) (w : World)
    (h : ∀ c ∈ f.children, c.entity.isSome = true) : (f.raze ve w).isSome = true := by
  have := razeChildren_total f.children w h
  obtain ⟨r, hr⟩ := Option.isSome_iff_exists.mp this
  simp [Fragment.raze, hr]

lemma Fragment.raze_spec (f : Fragment) (ve : EntityId) (w : World) (r : Fragment × World)
    (h : f.raze ve w = some r) :
    r.2.nextId = w.nextId ∧
    (∃ tE, r.2.trace = w.trace ++ tE ∧ tE.all isTeardownEvent = true) ∧
    razeLabels r.2.trace = razeLabels w.trace ++ f.labels ∧
    (∀ x, x ∉ w.live → x ∉ r.2.live) ∧
    ve ∉ r.2.live ∧
    (∀ x ∈ f.childEntities, x ∉ r.2.live) := by
  cases hr1 : razeChildren f.children w with
  | none => simp [Fragment.raze, hr1] at h
  | some r1 =>
      have hreq : r = (⟨r1.1⟩, r1.2.despawn ve) := by
        simp only [Fragment.raze, hr1] at h
        exact (Option.some_inj.mp h).symm
      obtain ⟨ih1, ⟨tE, ihtr, ihall⟩, ihlab, ihlive, ihdead⟩ :=
        razeChildren_spec f.children w r1 hr1
      have hdl : (r1.2.despawn ve).live = r1.2.live.filter (fun x => x ≠ ve) := rfl
      have habs : ∀ x, x ∉ r1.2.live → x ∉ (r1.2.despawn ve).live := by
        intro x hx hmem
        rw [hdl] at hmem
        exact hx (List.mem_of_mem_filter hmem)
      subst hreq
      refine ⟨ih1, ?_, ?_, ?_, ?_, ?_⟩
      · refine ⟨tE ++ [Event.despawn ve], ?_, ?_⟩
        · show r1.2.trace ++ [Event.despawn ve] = w.trace ++ (tE ++ [Event.despawn ve])
          rw [ihtr, List.append_assoc]
        · simp [isTeardownEvent, ihall]
      · show razeLabels (r1.2.trace ++ [Event.despawn ve]) =
          razeLabels w.trace ++ f.labels
        rw [razeLabels_append, ihlab]
        simp [razeLabels, Fragment.labels]
      · intro x hx
        exact habs x (ihlive x hx)
      · rw [hdl]
        intro hmem
        have := List.of_mem_filter hmem
        simp at this
      · intro x hx
        obtain ⟨c, hc, hce⟩ := List.mem_filterMap.mp hx
        exact habs x (ihdead c hc x hce)

lemma buildBranchState_spec (branch : Unit → Fragment) (parent : EntityId) (w : World) :
    (Cond.buildBranchState branch parent w).1.2 = w.nextId ∧
    (∃ bE, (Cond.buildBranchState branch parent w).2.trace = w.trace ++ bE ∧
      bE.all isConstructionEvent = true) ∧
    (∀ x, x ∉ w.live → x < w.nextId → x ∉ (Cond.buildBranchState branch parent w).2.live) ∧
    (∀ x, x < w.nextId → (Cond.buildBranchState branch parent w).2.parentOf x = w.parentOf x) := by
  obtain ⟨bc1, ⟨bE, bctr, bcall⟩, bclab, bcent, bclive, bcpar⟩ :=
    buildChildren_spec w.nextId (branch ()).children
      (((w.spawnEmpty).2).setParent w.nextId parent)
  have hw2n : (((w.spawnEmpty).2).setParent w.nextId parent).nextId = w.nextId + 1 := rfl
  have hw2l : (((w.spawnEmpty).2).setParent w.nextId parent).live = w.live ++ [w.nextId] := rfl
  have hw2t : (((w.spawnEmpty).2).setParent w.nextId parent).trace =
      w.trace ++ [Event.spawn w.nextId, Event.setParent w.nextId parent] := by
    simp [World.spawnEmpty, World.setParent]
  have hfl : (Cond.buildBranchState branch parent w).2.live =
      (buildChildren w.nextId (branch ()).children
        (((w.spawnEmpty).2).setParent w.nextId parent)).2.live := rfl
  have hfp : ∀ x, (Cond.buildBranchState branch parent w).2.parentOf x =
      (buildChildren w.nextId (branch ()).children
        (((w.spawnEmpty).2).setParent w.nextId parent)).2.parentOf x := fun _ => rfl
  have hft : (Cond.buildBranchState branch parent w).2.trace =
      (buildChildren w.nextId (branch ()).children
        (((w.spawnEmpty).2).setParent w.nextId parent)).2.trace ++
        [Event.displayNodeChanged parent] := rfl
  refine ⟨rfl, ?_, ?_, ?_⟩
  · refine ⟨[Event.spawn w.nextId, Event.setParent w.nextId parent] ++ bE ++
      [Event.displayNodeChanged parent], ?_, ?_⟩
    · rw [hft, bctr, hw2t]
      simp [List.append_assoc]
    · simp only [List.all_append, Bool.and_eq_true]
      exact ⟨⟨by simp [isConstructionEvent], bcall⟩, by simp [isConstructionEvent]⟩
  · intro x hx hlt
    rw [hfl]
    refine bclive x ?_ ?_
    · rw [hw2l]
      simp only [List.mem_append, List.mem_singleton]
      rintro (hm | hm)
      · exact hx hm
      · exact Nat.lt_irrefl _ (hm ▸ hlt)
    · rw [hw2n]
      exact Nat.lt_succ_of_lt hlt
  · intro x hlt
    rw [hfp x]
    have h1 : x < (((w.spawnEmpty).2).setParent w.nextId parent).nextId := by
      rw [hw2n]
      exact Nat.lt_succ_of_lt hlt
    rw [bcpar x h1]
    have h2 : (((w.spawnEmpty).2).setParent w.nextId parent).parentOf x =
        ((w.spawnEmpty).2).parentOf x :=
      parentOf_setParent_ne _ _ _ _ (Nat.ne_of_lt hlt)
    rw [h2]
    rfl

/-- A concrete empty world used by the witnesses. -/
def emptyWorld : World :=
  { nextId := 0, live := [], parents := [], scopes := [], reactionCells := [],
    ghostNodes := [], mutables := [], derivedCells := [], changeTick := 0,
    lastChangeTick := 0, trace := [] }

/-- C10: `Fragment`'s implementation of the `Reaction` contract is a
no-op — for every owner entity, world and tracking scope, its `react`
returns immediately leaving the children list, the world and the
tracking scope unchanged (`fragment.rs` lines 73-81: the body is
empty). -/
theorem fragment_react_noop (f : Fragment) (owner : EntityId) (w : World)
    (t : TrackingScope) : Fragment.react f owner w t = (f, w, t) := rfl

/-- C8: downcasting a type-erased callback returns the original typed
handle exactly when the requested props type's tag equals the stored
procedure's type tag, and panics (DowncastMismatch, modelled `none`) if
and only if the tags differ (`callback.rs` lines 22-32). -/
theorem callback_downcast_iff (c : Callback) (reqTag : Nat) :
    (AnyCallback.downcast c reqTag = some c ↔ reqTag = c.tagP) ∧
    (AnyCallback.downcast c reqTag = none ↔ reqTag ≠ c.tagP) := by
  unfold AnyCallback.downcast
  by_cases h : reqTag = c.tagP <;> simp [h]

/-- C7: every read of a derived signal whose node carries no
`DerivedCell` — through `read_derived`, `read_derived_clone` or
`read_derived_map`, with or without an explicit scope — panics
("No derived found", a fatal MissingDependency fault modelled `none`)
rather than returning a value or a typed error (`derived.rs` lines
112-161 for `World`; the `DeferredWorld` impl at lines 192-242 is the
same code). -/
theorem derived_read_missing_panics (w : World) (d : EntityId) (s : TrackingScope)
    (f : Nat → Nat) (h : w.derivedCellOf d = none) :
    w.readDerivedWithScope d s = none ∧
    w.readDerivedCloneWithScope d s = none ∧
    w.readDerivedMapWithScope d s f = none ∧
    w.readDerived d = none ∧
    w.readDerivedClone d = none ∧
    w.readDerivedMap d f = none := by
  refine ⟨?_, ?_, ?_, ?_, ?_, ?_⟩ <;>
    simp [World.readDerivedWithScope, World.readDerivedCloneWithScope,
      World.readDerivedMapWithScope, World.readDerived, World.readDerivedClone,
      World.readDerivedMap, h]

/-- Witness for C7 at the empty world and node 0. -/
theorem derived_read_missing_panics_witness :
    emptyWorld.derivedCellOf 0 = none ∧
    (emptyWorld.readDerivedWithScope 0 ⟨[], 0⟩ = none ∧
     emptyWorld.readDerivedCloneWithScope 0 ⟨[], 0⟩ = none ∧
     emptyWorld.readDerivedMapWithScope 0 ⟨[], 0⟩ (fun v => v + 1) = none ∧
     emptyWorld.readDerived 0 = none ∧
     emptyWorld.readDerivedClone 0 = none ∧
     emptyWorld.readDerivedMap 0 (fun v => v + 1) = none) :=
  ⟨by decide, derived_read_missing_panics emptyWorld 0 ⟨[], 0⟩ (fun v => v + 1) (by decide)⟩

/-- C3: a `Fragment` with declared children v1..vn builds them in
declared order v1..vn, recording each child's resulting entity, and
razes them in the same declared order v1..vn — not in reverse
(`fragment.rs` lines 54-70: both loops iterate the children list
forward). -/
theorem fragment_build_raze_order (f : Fragment) (ve re : EntityId) (w wr : World)
    (hents : ∀ c ∈ f.children, c.entity.isSome = true) :
    buildLabels (f.build ve w).2.trace = buildLabels w.trace ++ f.labels ∧
    (∀ c ∈ (f.build ve w).1.children, c.entity.isSome = true) ∧
    (∃ r, f.raze re wr = some r ∧
      razeLabels r.2.trace = razeLabels wr.trace ++ f.labels) := by
  obtain ⟨_, _, hlab, hent, _, _⟩ := buildChildren_spec ve f.children w
  refine ⟨hlab, hent, ?_⟩
  obtain ⟨r, hr⟩ := Option.isSome_iff_exists.mp (Fragment.raze_total f re wr hents)
  obtain ⟨_, _, hrlab, _, _, _⟩ := Fragment.raze_spec f re wr r hr
  exact ⟨r, hr, hrlab⟩

/-- A concrete three-child fragment, children labelled 1, 2, 3 and
already built on entities 10, 11, 12. -/
def fragment123 : Fragment :=
  ⟨[⟨⟨1⟩, some 10⟩, ⟨⟨2⟩, some 11⟩, ⟨⟨3⟩, some 12⟩]⟩

/-- Witness for C3 at a fragment of children labelled 1, 2, 3. -/
theorem fragment_build_raze_order_witness :
    (∀ c ∈ fragment123.children, c.entity.isSome = true) ∧
    (buildLabels (fragment123.build 0 emptyWorld).2.trace =
      buildLabels emptyWorld.trace ++ fragment123.labels ∧
     (∀ c ∈ (fragment123.build 0 emptyWorld).1.children, c.entity.isSome = true) ∧
     (∃ r, fragment123.raze 0 emptyWorld = some r ∧
       razeLabels r.2.trace = razeLabels emptyWorld.trace ++ fragment123.labels)) :=
  ⟨by decide, fragment_build_raze_order fragment123 0 0 emptyWorld emptyWorld (by decide)⟩

/-- C5: when a built `Cond`'s `react` re-evaluates the test and the
result matches the kind of the active branch (True with a true test,
False with a false test), `react` is a no-op: the same `Cond` state,
the same world (so the active branch's subtree is untouched and no
raze or build happens) — regardless of why the reaction was
re-triggered, including a write of an unchanged value (`cond.rs` lines
92-94 and 113-115). -/
theorem cond_react_matching_noop (c : Cond) (ve : EntityId) (w : World)
    (t : TrackingScope) (br : Fragment × EntityId)
    (hmatch : (c.state = CondState.isTrue br ∧ (c.test w t).1 = true) ∨
              (c.state = CondState.isFalse br ∧ (c.test w t).1 = false)) :
    Cond.react c ve w t = some (c, w, (c.test w t).2) := by
  rcases hmatch with ⟨hs, ht⟩ | ⟨hs, ht⟩ <;>
    simp [Cond.react, hs, ht]

/-- A concrete `Cond` whose True branch is active. -/
def condTrue0 : Cond :=
  { test := fun _ t => (true, t)
    pos := fun _ => ⟨[⟨⟨1⟩, none⟩]⟩
    neg := fun _ => ⟨[⟨⟨2⟩, none⟩]⟩
    state := CondState.isTrue (⟨[⟨⟨1⟩, some 3⟩]⟩, 2) }

/-- Witness for C5 at a `Cond` with an active True branch and a test
that still evaluates true. -/
theorem cond_react_matching_noop_witness :
    (condTrue0.state = CondState.isTrue (⟨[⟨⟨1⟩, some 3⟩]⟩, 2) ∧
     (condTrue0.test emptyWorld ⟨[], 0⟩).1 = true) ∧
    Cond.react condTrue0 0 emptyWorld ⟨[], 0⟩ =
      some (condTrue0, emptyWorld, (condTrue0.test emptyWorld ⟨[], 0⟩).2) :=
  ⟨⟨rfl, rfl⟩,
   cond_react_matching_noop condTrue0 0 emptyWorld ⟨[], 0⟩ _ (Or.inl ⟨rfl, rfl⟩)⟩

lemma record_tick (t : TrackingScope) (e : EntityId) : (t.record e).tick = t.tick := by
  unfold TrackingScope.record
  by_cases h : e ∈ t.deps <;> simp [h]

lemma record_mem (t : TrackingScope) (e x : EntityId) :
    x ∈ (t.record e).deps ↔ x ∈ t.deps ∨ x = e := by
  unfold TrackingScope.record
  by_cases h : e ∈ t.deps
  · simp [h]
    intro hx
    rw [hx]
    exact h
  · simp [h]

lemma evalSig_scope_value : ∀ (expr : SigExpr) (w : World) (t : TrackingScope) (v : Nat)
    (t1 : TrackingScope), evalSig expr w t = some (v, t1) →
      ∀ t' : TrackingScope, ∃ t1', evalSig expr w t' = some (v, t1')
  | .lit n, w, t, v, t1, h, t' => by
      simp [evalSig] at h
      exact ⟨t', by simp [evalSig, h.1]⟩
  | .readMutable e, w, t, v, t1, h, t' => by
      cases hm : w.mutableValue e with
      | none => simp [evalSig, hm] at h
      | some v0 =>
          simp [evalSig, hm] at h
          exact ⟨t'.record e, by simp [evalSig, hm, h.1]⟩
  | .add a b, w, t, v, t1, h, t' => by
      cases ha : evalSig a w t with
      | none => simp [evalSig, ha] at h
      | some ra =>
          cases hb : evalSig b w ra.2 with
          | none => simp [evalSig, ha, hb] at h
          | some rb =>
              obtain ⟨ta', ha'⟩ := evalSig_scope_value a w t ra.1 ra.2 (by simp [ha]) t'
              obtain ⟨tb', hb'⟩ := evalSig_scope_value b w ra.2 rb.1 rb.2 (by simp [hb]) ta'
              refine ⟨tb', ?_⟩
              simp only [evalSig, ha, hb] at h
              simp only [evalSig, ha', hb']
              simp at h ⊢
              exact h.1

lemma evalSig_deps : ∀ (expr : SigExpr) (w : World) (t : TrackingScope) (v : Nat)
    (t1 : TrackingScope), evalSig expr w t = some (v, t1) →
      t1.tick = t.tick ∧ ∀ x, x ∈ t1.deps ↔ x ∈ t.deps ∨ x ∈ expr.reads
  | .lit n, w, t, v, t1, h => by
      simp [evalSig] at h
      rw [← h.2]
      simp [SigExpr.reads]
  | .readMutable e, w, t, v, t1, h => by
      cases hm : w.mutableValue e with
      | none => simp [evalSig, hm] at h
      | some v0 =>
          simp [evalSig, hm] at h
          rw [← h.2]
          exact ⟨record_tick t e, fun x => by simp [record_mem, SigExpr.reads]⟩
  | .add a b, w, t, v, t1, h => by
      cases ha : evalSig a w t with
      | none => simp [evalSig, ha] at h
      | some ra =>
          cases hb : evalSig b w ra.2 with
          | none => simp [evalSig, ha, hb] at h
          | some rb =>
              obtain ⟨hta, hda⟩ := evalSig_deps a w t ra.1 ra.2 (by simp [ha])
              obtain ⟨htb, hdb⟩ := evalSig_deps b w ra.2 rb.1 rb.2 (by simp [hb])
              simp only [evalSig, ha, hb] at h
              simp at h
              rw [← h.2]
              constructor
              · rw [htb, hta]
              · intro x
                rw [hdb x, hda x]
                simp [SigExpr.reads, or_assoc]

/-- C2: reads of a `Derived` signal are not memoized — every read
(`read_derived` / `read_derived_clone` / `read_derived_map`, with or
without an explicit scope) invokes the stored compute function against
the current world (there is no cache: the read's result is exactly the
fresh evaluation of the stored function), so two consecutive reads with
no intervening write (same world) return the same value; and the
compute function runs with an `Rcx` bound to the caller's tracking
scope, so exactly the dependencies it reads are added to the caller's
scope (transitive dependency propagation), its baseline tick untouched
(`derived.rs` lines 112-161). -/
theorem derived_read_unmemoized (w : World) (d : EntityId) (cell : SigExpr)
    (s : TrackingScope) (r1 : Nat) (s1 : TrackingScope)
    (hcell : w.derivedCellOf d = some cell)
    (heval : evalSig cell w s = some (r1, s1)) :
    w.readDerivedWithScope d s = some (r1, s1) ∧
    (∀ s', ∃ s1', w.readDerivedWithScope d s' = some (r1, s1')) ∧
    (∀ s', ∃ s1', w.readDerivedCloneWithScope d s' = some (r1, s1')) ∧
    (∀ s' f, ∃ s1', w.readDerivedMapWithScope d s' f = some (f r1, s1')) ∧
    w.readDerived d = some r1 ∧
    w.readDerivedClone d = some r1 ∧
    s1.tick = s.tick ∧
    (∀ x, x ∈ s1.deps ↔ x ∈ s.deps ∨ x ∈ cell.reads) := by
  have hval := evalSig_scope_value cell w s r1 s1 heval
  obtain ⟨hticks, hdeps⟩ := evalSig_deps cell w s r1 s1 heval
  obtain ⟨tf, htf⟩ := hval ⟨[], w.changeTick⟩
  refine ⟨?_, ?_, ?_, ?_, ?_, ?_, hticks, hdeps⟩
  · simp [World.readDerivedWithScope, hcell, heval]
  · intro s'
    obtain ⟨t1', h1'⟩ := hval s'
    exact ⟨t1', by simp [World.readDerivedWithScope, hcell, h1']⟩
  · intro s'
    obtain ⟨t1', h1'⟩ := hval s'
    exact ⟨t1', by simp [World.readDerivedCloneWithScope, hcell, h1']⟩
  · intro s' f
    obtain ⟨t1', h1'⟩ := hval s'
    exact ⟨t1', by simp [World.readDerivedMapWithScope, hcell, h1']⟩
  · simp [World.readDerived, World.readDerivedWithScope, hcell, htf]
  · simp [World.readDerivedClone, World.readDerivedCloneWithScope, hcell, htf]

/-- A concrete world holding one mutable cell (entity 1, value 5) and
one derived signal (entity 0) whose compute function reads the cell
and adds 2. -/
def derivedWorld : World :=
  { emptyWorld with
    nextId := 2
    live := [0, 1]
    mutables := [(1, 5)]
    derivedCells := [(0, SigExpr.add (SigExpr.readMutable 1) (SigExpr.lit 2))] }

/-- Witness for C2 at `derivedWorld`: the read evaluates the stored
compute function to 7 and records the dependency on cell 1 in the
caller's scope. -/
theorem derived_read_unmemoized_witness :
    (derivedWorld.derivedCellOf 0 =
        some (SigExpr.add (SigExpr.readMutable 1) (SigExpr.lit 2)) ∧
      evalSig (SigExpr.add (SigExpr.readMutable 1) (SigExpr.lit 2)) derivedWorld ⟨[], 3⟩ =
        some (7, ⟨[1], 3⟩)) ∧
    derivedWorld.readDerivedWithScope 0 ⟨[], 3⟩ = some (7, ⟨[1], 3⟩) :=
  ⟨⟨by decide, by decide⟩,
   (derived_read_unmemoized derivedWorld 0
      (SigExpr.add (SigExpr.readMutable 1) (SigExpr.lit 2)) ⟨[], 3⟩ 7 ⟨[1], 3⟩
      (by decide) (by decide)).1⟩

lemma despawn_self_dead (w : World) (e : EntityId) : e ∉ (w.despawn e).live := by
  intro h
  have := List.of_mem_filter h
  simp at this

lemma despawnAll_absent : ∀ (l : List EntityId) (w : World) (x : EntityId),
    x ∉ w.live → x ∉ (despawnAll l w).live
  | [], _, _, h => h
  | e :: rest, w, x, h =>
      despawnAll_absent rest (w.despawn e) x
        (fun hmem => h (List.mem_of_mem_filter hmem))

lemma despawnOwnedRecursive_dead (w : World) (e : EntityId) :
    e ∉ (w.despawnOwnedRecursive e).live := by
  unfold World.despawnOwnedRecursive
  cases hf : w.parents.length with
  | zero =>
      show e ∉ (despawnAll (w.subtree 0 e) w).live
      simp only [World.subtree, despawnAll]
      exact despawn_self_dead w e
  | succ n =>
      show e ∉ (despawnAll (w.subtree (n + 1) e) w).live
      simp only [World.subtree, despawnAll]
      exact despawnAll_absent _ _ e (despawn_self_dead w e)

/-- A concrete `Cond` that was never built: its state is `Unset`. -/
def condUnset5 : Cond :=
  { test := fun _ t => (true, t)
    pos := fun _ => ⟨[]⟩
    neg := fun _ => ⟨[]⟩
    state := CondState.unset }

/-- A concrete world in which entity 5 (the Cond's view entity) is
live. -/
def worldLive5 : World := { emptyWorld with nextId := 6, live := [5] }

/-- Counterexample to C4 as stated: razing an `Unset` `Cond` on view
entity 5 is not a no-op — `Cond::raze` still runs
`despawn_owned_recursive(view_entity)` (`cond.rs` line 145), so entity
5 is removed and the store is changed. -/
theorem cond_raze_unset_counterexample :
    (Cond.raze condUnset5 5 worldLive5).map (fun r => r.2.live) = some [] ∧
    worldLive5.live = [5] := by
  constructor
  · decide
  · rfl

/-- C4 (amended): `raze` tears down whichever branch is active; if the
state is `Unset` no branch teardown is performed, but `raze` still
recursively despawns the Cond's own view entity (and its owned
subtree), so after `raze` the view entity is gone from the store in
every case (`cond.rs` lines 135-146). -/
theorem cond_raze_amended (c : Cond) (ve : EntityId) (w : World) :
    (c.state = CondState.unset →
      Cond.raze c ve w = some (c, w.despawnOwnedRecursive ve)) ∧
    (∀ br, c.state = CondState.isTrue br →
      Cond.raze c ve w =
        (br.1.raze br.2 w).map (fun r => (c, r.2.despawnOwnedRecursive ve))) ∧
    (∀ br, c.state = CondState.isFalse br →
      Cond.raze c ve w =
        (br.1.raze br.2 w).map (fun r => (c, r.2.despawnOwnedRecursive ve))) ∧
    ve ∉ (w.despawnOwnedRecursive ve).live := by
  refine ⟨?_, ?_, ?_, despawnOwnedRecursive_dead w ve⟩
  · intro hs
    simp [Cond.raze, hs]
  · intro br hs
    cases hr : br.1.raze br.2 w with
    | none => simp [Cond.raze, hs, hr]
    | some r => simp [Cond.raze, hs, hr]
  · intro br hs
    cases hr : br.1.raze br.2 w with
    | none => simp [Cond.raze, hs, hr]
    | some r => simp [Cond.raze, hs, hr]

/-- Witness for the amended C4 at the `Unset` `Cond` and view entity
5: the raze still despawns entity 5. -/
theorem cond_raze_amended_witness :
    condUnset5.state = CondState.unset ∧
    Cond.raze condUnset5 5 worldLive5 =
      some (condUnset5, worldLive5.despawnOwnedRecursive 5) ∧
    5 ∉ (worldLive5.despawnOwnedRecursive 5).live :=
  ⟨rfl, (cond_raze_amended condUnset5 5 worldLive5).1 rfl,
    (cond_raze_amended condUnset5 5 worldLive5).2.2.2⟩

lemma insertScope_parentOf (w : World) (e : EntityId) (t : TrackingScope) (x : EntityId) :
    (w.insertScope e t).parentOf x = w.parentOf x := rfl

lemma cond_react_unset (c : Cond) (ve : EntityId) (w : World) (t : TrackingScope)
    (hunset : c.state = CondState.unset) :
    Cond.react c ve w t =
      some (if (c.test w t).1
        then ({ c with state := CondState.isTrue (Cond.buildBranchState c.pos ve w).1 },
          (Cond.buildBranchState c.pos ve w).2, (c.test w t).2)
        else ({ c with state := CondState.isFalse (Cond.buildBranchState c.neg ve w).1 },
          (Cond.buildBranchState c.neg ve w).2, (c.test w t).2)) := by
  cases htest : (c.test w t).1 <;> simp [Cond.react, hunset, htest]

/-- C9: `Cond::build` has the unstated precondition that the view
entity already has a parent: after the initial test evaluation
(transitioning from `Unset`, which only spawns fresh entities and so
leaves the view entity's `Parent` untouched) and after inserting the
tracking scope that was created fresh at the world's current change
tick, `build` asserts that the view entity has a `Parent` and panics
("Cond should have a parent view", modelled `none`) exactly when it
does not (`cond.rs` lines 77-85). -/
theorem cond_build_asserts_parent (c : Cond) (ve : EntityId) (w : World)
    (hunset : c.state = CondState.unset) (hve : ve < w.nextId) :
    (Cond.build c ve w = none ↔ w.parentOf ve = none) ∧
    (∀ p, w.parentOf ve = some p →
      ∃ r, Cond.react c ve w ⟨[], w.changeTick⟩ = some r ∧
        Cond.build c ve w = some (r.1, r.2.1.insertScope ve r.2.2)) := by
  have h0 := cond_react_unset c ve w ⟨[], w.changeTick⟩ hunset
  cases htest : (c.test w ⟨[], w.changeTick⟩).1
  · rw [htest] at h0
    simp only [Bool.false_eq_true, if_false] at h0
    have hpar := (buildBranchState_spec c.neg ve w).2.2.2 ve hve
    have hb : Cond.build c ve w =
        if (w.parentOf ve).isSome
        then some ({ c with state := CondState.isFalse (Cond.buildBranchState c.neg ve w).1 },
          ((Cond.buildBranchState c.neg ve w).2).insertScope ve
            (c.test w ⟨[], w.changeTick⟩).2)
        else none := by
      simp only [Cond.build, h0, insertScope_parentOf, hpar]
    constructor
    · rw [hb]
      cases hw : w.parentOf ve <;> simp [hw]
    · intro p hp
      refine ⟨_, h0, ?_⟩
      rw [hb, hp]
      rfl
  · rw [htest] at h0
    simp only [if_true] at h0
    have hpar := (buildBranchState_spec c.pos ve w).2.2.2 ve hve
    have hb : Cond.build c ve w =
        if (w.parentOf ve).isSome
        then some ({ c with state := CondState.isTrue (Cond.buildBranchState c.pos ve w).1 },
          ((Cond.buildBranchState c.pos ve w).2).insertScope ve
            (c.test w ⟨[], w.changeTick⟩).2)
        else none := by
      simp only [Cond.build, h0, insertScope_parentOf, hpar]
    constructor
    · rw [hb]
      cases hw : w.parentOf ve <;> simp [hw]
    · intro p hp
      refine ⟨_, h0, ?_⟩
      rw [hb, hp]
      rfl

/-- A concrete world where entity 0 has entity 1 as parent. -/
def worldParent0 : World :=
  { emptyWorld with nextId := 2, live := [0, 1], parents := [(0, 1)] }

/-- Witness for C9 at an `Unset` `Cond` built on entity 0, which has a
parent, so the assert passes (build does not panic). -/
theorem cond_build_asserts_parent_witness :
    (condUnset5.state = CondState.unset ∧ (0 : EntityId) < worldParent0.nextId) ∧
    (Cond.build condUnset5 0 worldParent0 = none ↔ worldParent0.parentOf 0 = none) :=
  ⟨⟨rfl, by decide⟩,
    (cond_build_asserts_parent condUnset5 0 worldParent0 rfl (by decide)).1⟩

lemma find?_eq_none_of_lt {α : Type} (l : List (Nat × α)) (n : Nat)
    (h : ∀ p ∈ l, p.1 < n) : l.find? (fun p => p.1 = n) = none := by
  rw [List.find?_eq_none]
  intro p hp
  simp only [decide_eq_true_eq]
  exact Nat.ne_of_lt (h p hp)

/-- C6: a reaction is not run automatically at registration (inserting
the `ReactionCell` executes nothing); `create_effect` invokes the
effect reaction's `react` exactly once, synchronously — the whole call
factors as spawn, set-parent, a single `react` call, then component
insertion — and the `TrackingScope` (created fresh at
`last_change_tick`) and `ReactionCell` components are inserted on the
newly spawned owner entity only after that `react` call: at the moment
`react` runs, the owner entity carries neither component
(`ui_builder.rs` lines 110-123, `reaction.rs` lines 7-22). -/
theorem create_effect_runs_react_once (w : World) (owner : EntityId) (r : EffectReaction)
    (hscopes : ∀ p ∈ w.scopes, p.1 < w.nextId)
    (hcells : ∀ e ∈ w.reactionCells, e < w.nextId) :
    UiBuilder.createEffect w owner r =
      (r.react w.nextId (((w.spawnEmpty).2).setParent w.nextId owner)
          ⟨[], w.lastChangeTick⟩).1.insertEffectComponents w.nextId
        (r.react w.nextId (((w.spawnEmpty).2).setParent w.nextId owner)
          ⟨[], w.lastChangeTick⟩).2 ∧
    (((w.spawnEmpty).2).setParent w.nextId owner).scopeOf w.nextId = none ∧
    w.nextId ∉ (((w.spawnEmpty).2).setParent w.nextId owner).reactionCells ∧
    (((w.spawnEmpty).2).setParent w.nextId owner).parentOf w.nextId = some owner ∧
    (UiBuilder.createEffect w owner r).scopeOf w.nextId =
      some (r.react w.nextId (((w.spawnEmpty).2).setParent w.nextId owner)
        ⟨[], w.lastChangeTick⟩).2 ∧
    w.nextId ∈ (UiBuilder.createEffect w owner r).reactionCells := by
  refine ⟨rfl, ?_, ?_, ?_, ?_, ?_⟩
  · show (World.scopeOf { w with
        nextId := w.nextId + 1
        live := w.live ++ [w.nextId]
        parents := (w.nextId, owner) :: w.parents.filter (fun p => p.1 ≠ w.nextId)
        trace := (w.trace ++ [Event.spawn w.nextId]) ++ [Event.setParent w.nextId owner] }
      w.nextId) = none
    simp only [World.scopeOf]
    rw [find?_eq_none_of_lt w.scopes w.nextId hscopes]
    rfl
  · intro hmem
    have : w.nextId ∈ w.reactionCells := hmem
    exact Nat.lt_irrefl _ (hcells _ this)
  · simp [World.setParent, World.parentOf, List.find?_cons]
  · show (((r.react w.nextId (((w.spawnEmpty).2).setParent w.nextId owner)
        ⟨[], w.lastChangeTick⟩).1.insertEffectComponents w.nextId
        (r.react w.nextId (((w.spawnEmpty).2).setParent w.nextId owner)
          ⟨[], w.lastChangeTick⟩).2)).scopeOf w.nextId = _
    simp [World.insertEffectComponents, World.insertScope, World.scopeOf, List.find?_cons]
  · show w.nextId ∈ ((r.react w.nextId (((w.spawnEmpty).2).setParent w.nextId owner)
        ⟨[], w.lastChangeTick⟩).1.insertEffectComponents w.nextId
        (r.react w.nextId (((w.spawnEmpty).2).setParent w.nextId owner)
          ⟨[], w.lastChangeTick⟩).2).reactionCells
    simp [World.insertEffectComponents]

/-- A trivial effect: reads nothing, changes nothing. -/
def effectId : EffectReaction := ⟨fun _ w t => (w, t)⟩

/-- A concrete world with one live entity, 0, which will own the
effect. -/
def worldOwner0 : World := { emptyWorld with nextId := 1, live := [0] }

/-- Witness for C6: creating an effect owned by entity 0 spawns entity
1, and after `create_effect` returns, entity 1 carries the tracking
scope produced by the single `react` call and a reaction cell. -/
theorem create_effect_runs_react_once_witness :
    ((∀ p ∈ worldOwner0.scopes, p.1 < worldOwner0.nextId) ∧
     (∀ e ∈ worldOwner0.reactionCells, e < worldOwner0.nextId)) ∧
    (UiBuilder.createEffect worldOwner0 0 effectId).scopeOf worldOwner0.nextId =
      some (effectId.react worldOwner0.nextId
        (((worldOwner0.spawnEmpty).2).setParent worldOwner0.nextId 0)
        ⟨[], worldOwner0.lastChangeTick⟩).2 ∧
    worldOwner0.nextId ∈ (UiBuilder.createEffect worldOwner0 0 effectId).reactionCells :=
  ⟨⟨by decide, by decide⟩,
    (create_effect_runs_react_once worldOwner0 0 effectId (by decide) (by decide)).2.2.2.2.1,
    (create_effect_runs_react_once worldOwner0 0 effectId (by decide) (by decide)).2.2.2.2.2⟩

/-- The `CondState` with the branch kind selected by a test value. -/
def condStateOfKind (b : Bool) (br : Fragment × EntityId) : CondState :=
  if b then CondState.isTrue br else CondState.isFalse br

lemma cond_switch_core (f : Fragment) (be ve : EntityId) (w : World) (F : Unit → Fragment)
    (hents : ∀ ch ∈ f.children, ch.entity.isSome = true)
    (hbe : be < w.nextId)
    (hce : ∀ x ∈ f.childEntities, x < w.nextId) :
    ∃ rz, f.raze be w = some rz ∧
      (be ∉ rz.2.live ∧ ∀ x ∈ f.childEntities, x ∉ rz.2.live) ∧
      (be ∉ ((Cond.buildBranchState F ve rz.2).2).live ∧
        ∀ x ∈ f.childEntities, x ∉ ((Cond.buildBranchState F ve rz.2).2).live) ∧
      ∃ tE bEv, ((Cond.buildBranchState F ve rz.2).2).trace = w.trace ++ tE ++ bEv ∧
        tE.all isTeardownEvent = true ∧ bEv.all isConstructionEvent = true := by
  obtain ⟨rz, hrz⟩ := Option.isSome_iff_exists.mp (Fragment.raze_total f be w hents)
  obtain ⟨hnid, ⟨tE, htr, hall⟩, _, _, hbed, hced⟩ := Fragment.raze_spec f be w rz hrz
  obtain ⟨_, ⟨bEv, hbtr, hball⟩, hblive, _⟩ := buildBranchState_spec F ve rz.2
  refine ⟨rz, hrz, ⟨hbed, hced⟩, ⟨?_, ?_⟩, ⟨tE, bEv, ?_, hall, hball⟩⟩
  · exact hblive be hbed (by rw [hnid]; exact hbe)
  · intro x hx
    exact hblive x (hced x hx) (by rw [hnid]; exact hce x hx)
  · rw [hbtr, htr, List.append_assoc]

/-- C1: when a built `Cond`'s test re-evaluates to the kind opposite
to the active branch, `Cond::react` razes the active branch to
completion strictly before any construction of the new branch begins —
the active view's `raze` is called on its branch entity and returns,
at which point the branch entity and its whole child subtree are
already absent from the store; only then is the new branch built (from
the post-raze world, so the final trace is the original trace followed
by teardown events followed by construction events) — and afterwards
exactly one branch, the newly built one, is active in the `Cond`
state, the former branch's entities staying dead (`cond.rs` lines
87-133). -/
theorem cond_react_switch (c : Cond) (ve : EntityId) (w : World) (t : TrackingScope)
    (f : Fragment) (be : EntityId)
    (hswitch : (c.state = CondState.isTrue (f, be) ∧ (c.test w t).1 = false) ∨
               (c.state = CondState.isFalse (f, be) ∧ (c.test w t).1 = true))
    (hents : ∀ ch ∈ f.children, ch.entity.isSome = true)
    (hbe : be < w.nextId)
    (hce : ∀ x ∈ f.childEntities, x < w.nextId) :
    ∃ rz, f.raze be w = some rz ∧
      (be ∉ rz.2.live ∧ ∀ x ∈ f.childEntities, x ∉ rz.2.live) ∧
      Cond.react c ve w t = some
        ({ c with state := (condStateOfKind (c.test w t).1
            (Cond.buildBranchState (if (c.test w t).1 then c.pos else c.neg) ve rz.2).1) },
          (Cond.buildBranchState (if (c.test w t).1 then c.pos else c.neg) ve rz.2).2,
          (c.test w t).2) ∧
      (be ∉ ((Cond.buildBranchState (if (c.test w t).1 then c.pos else c.neg) ve rz.2).2).live ∧
        ∀ x ∈ f.childEntities,
          x ∉ ((Cond.buildBranchState (if (c.test w t).1 then c.pos else c.neg) ve rz.2).2).live) ∧
      ∃ tE bEv,
        ((Cond.buildBranchState (if (c.test w t).1 then c.pos else c.neg) ve rz.2).2).trace =
          w.trace ++ tE ++ bEv ∧
        tE.all isTeardownEvent = true ∧ bEv.all isConstructionEvent = true := by
  rcases hswitch with ⟨hs, htest⟩ | ⟨hs, htest⟩
  · obtain ⟨rz, hrz, hdead1, hdead2, htrace⟩ := cond_switch_core f be ve w c.neg hents hbe hce
    refine ⟨rz, hrz, hdead1, ?_, ?_, ?_⟩
    · simp only [htest, Bool.false_eq_true, if_false, condStateOfKind]
      simp [Cond.react, hs, htest, hrz]
    · simpa only [htest, Bool.false_eq_true, if_false] using hdead2
    · simpa only [htest, Bool.false_eq_true, if_false] using htrace
  · obtain ⟨rz, hrz, hdead1, hdead2, htrace⟩ := cond_switch_core f be ve w c.pos hents hbe hce
    refine ⟨rz, hrz, hdead1, ?_, ?_, ?_⟩
    · simp only [htest, if_true, condStateOfKind]
      simp [Cond.react, hs, htest, hrz]
    · simpa only [htest, if_true] using hdead2
    · simpa only [htest, if_true] using htrace

/-- The active True-branch fragment of the concrete switching `Cond`:
one child labelled 1, built on entity 3. -/
def fragTrue0 : Fragment := ⟨[⟨⟨1⟩, some 3⟩]⟩

/-- A concrete `Cond` whose True branch (on branch entity 2) is active
while its test now evaluates false, forcing a True→False switch. -/
def condSwitch0 : Cond :=
  { test := fun _ t => (false, t)
    pos := fun _ => ⟨[⟨⟨1⟩, none⟩]⟩
    neg := fun _ => ⟨[⟨⟨2⟩, none⟩]⟩
    state := CondState.isTrue (fragTrue0, 2) }

/-- A concrete world for the switch: view entity 0, branch entity 2
parented to it, branch child 3 parented to the branch entity. -/
def worldSwitch0 : World :=
  { emptyWorld with nextId := 4, live := [0, 2, 3], parents := [(2, 0), (3, 2)] }

/-- Witness for C1 at the concrete True→False switch. -/
theorem cond_react_switch_witness :
    ((condSwitch0.state = CondState.isTrue (fragTrue0, 2) ∧
       (condSwitch0.test worldSwitch0 ⟨[], 0⟩).1 = false) ∧
      (∀ ch ∈ fragTrue0.children, ch.entity.isSome = true) ∧
      (2 : EntityId) < worldSwitch0.nextId ∧
      (∀ x ∈ fragTrue0.childEntities, x < worldSwitch0.nextId)) ∧
    (∃ rz, fragTrue0.raze 2 worldSwitch0 = some rz ∧
      ((2 : EntityId) ∉ rz.2.live ∧ ∀ x ∈ fragTrue0.childEntities, x ∉ rz.2.live) ∧
      Cond.react condSwitch0 0 worldSwitch0 ⟨[], 0⟩ = some
        ({ condSwitch0 with state := (condStateOfKind
            (condSwitch0.test worldSwitch0 ⟨[], 0⟩).1
            (Cond.buildBranchState
              (if (condSwitch0.test worldSwitch0 ⟨[], 0⟩).1 then condSwitch0.pos
               else condSwitch0.neg) 0 rz.2).1) },
          (Cond.buildBranchState
            (if (condSwitch0.test worldSwitch0 ⟨[], 0⟩).1 then condSwitch0.pos
             else condSwitch0.neg) 0 rz.2).2,
          (condSwitch0.test worldSwitch0 ⟨[], 0⟩).2) ∧
      ((2 : EntityId) ∉ ((Cond.buildBranchState
          (if (condSwitch0.test worldSwitch0 ⟨[], 0⟩).1 then condSwitch0.pos
           else condSwitch0.neg) 0 rz.2).2).live ∧
        ∀ x ∈ fragTrue0.childEntities,
          x ∉ ((Cond.buildBranchState
            (if (condSwitch0.test worldSwitch0 ⟨[], 0⟩).1 then condSwitch0.pos
             else condSwitch0.neg) 0 rz.2).2).live) ∧
      ∃ tE bEv,
        ((Cond.buildBranchState
          (if (condSwitch0.test worldSwitch0 ⟨[], 0⟩).1 then condSwitch0.pos
           else condSwitch0.neg) 0 rz.2).2).trace =
          worldSwitch0.trace ++ tE ++ bEv ∧
        tE.all isTeardownEvent = true ∧ bEv.all isConstructionEvent = true) :=
  ⟨⟨⟨rfl, rfl⟩, by decide, by decide, by decide⟩,
    cond_react_switch condSwitch0 0 worldSwitch0 ⟨[], 0⟩ fragTrue0 2
      (Or.inl ⟨rfl, rfl⟩) (by decide) (by decide) (by decide)⟩
